import Mathlib

/-!
Shallow embedding of the request-dispatch core of burger-api: the `Burger`
class's `serve` request handler (special-path interception, route resolution,
method lookup, middleware-chain composition and execution) together with the
data it operates on.

Modelling notes:
* Request servicing is pure; observable middleware/handler invocations are
  recorded in a trace (`List Event`).
* A middleware, per the spec's contract (`(request, response, next) ->
  response`, where invoking `next()` continues the chain and omitting the call
  short-circuits it), is modelled as a named unit that, when invoked on a
  request, either delegates to its `next` continuation and returns its result,
  or short-circuits with a response of its own.
* The Path Resolver (`ApiRouter.resolve`, in the excluded `core/api-router`)
  is an opaque collaborator: an arbitrary function field returning an optional
  route plus extracted params, exactly the shape destructured by the
  dispatcher.
* The validation engine (`createValidationMiddleware`, in the excluded
  `middleware/validator`) is modelled from the spec; see its doc comment.
* `res.status(s).json(x)` / `res.json(x)` / `res.html(x)` become `Response`
  values directly; bodies that the dispatcher itself constructs are dedicated
  `Body` constructors, opaque collaborator output (the OpenAPI document, the
  Swagger UI page) are nullary constructors.
-/

namespace BurgerApi

/-- Response bodies the dispatcher and handlers can produce. `jsonError e`
stands for the JSON object with a single `error` field; `jsonErrorMsg e m` for
an object with `error` and `message` fields; `openapiDoc` for the result of
the excluded `generateOpenAPIDocument`; `swaggerHtml` for the excluded static
Swagger UI page; `helloFallback` for the fallback greeting object;
`validationError e` for a validator-produced error body; `payload s` for an
opaque handler- or middleware-produced body. -/
inductive Body where
  | jsonError (error : String)
  | jsonErrorMsg (error message : String)
  | openapiDoc
  | swaggerHtml
  | helloFallback
  | validationError (errors : String)
  | payload (s : String)
  deriving DecidableEq, Repr

/-- An HTTP response: status code and body. -/
structure Response where
  status : Nat
  body : Body
  deriving DecidableEq, Repr

/-- A request as seen by the dispatcher: the URL pathname (`new
URL(req.url).pathname`), the HTTP method string, and the `params` field the
dispatcher attaches after resolution. -/
structure Req where
  pathname : String
  method : String
  params : List (String × String)
  deriving DecidableEq, Repr

/-- Observable events of one request's execution: invocation of a named
middleware, or invocation of the terminal handler. -/
inductive Event where
  | mwCalled (name : String)
  | handlerCalled
  deriving DecidableEq, Repr

/-- What a middleware does when invoked on a request: call `next` and return
its result, or short-circuit with a response without calling `next`. -/
inductive MWAct where
  | next
  | halt (r : Response)
  deriving DecidableEq, Repr

/-- Does this action call `next`? -/
def MWAct.isNext : MWAct → Bool
  | .next => true
  | .halt _ => false

/-- A middleware: an identifying name (for the trace) and its behaviour on a
given request. -/
structure Middleware where
  name : String
  act : Req → MWAct

/-- A terminal route handler: consumes the request, produces a response. -/
def Handler := Req → Response

/-- A nullary composed continuation (the type of `routeChain`,
`composedChain`, `finalHandler` in the source): invoking it extends the trace
with the invocations it performs and yields the response. -/
def Chain := List Event → List Event × Response

/-- The innermost chain link: `async () => handler(req, res)`. -/
def handlerChain (h : Handler) (req : Req) : Chain :=
  fun tr => (tr ++ [Event.handlerCalled], h req)

/-- One wrapping step of the source's composition loops:
`routeChain = async () => mw(req, res, next)`. Invoking the wrapped chain
invokes `mw`; if `mw` calls `next` the inner chain continues, else execution
stops with `mw`'s response. -/
def wrap (mw : Middleware) (req : Req) (next : Chain) : Chain :=
  fun tr =>
    match mw.act req with
    | MWAct.next => next (tr ++ [Event.mwCalled mw.name])
    | MWAct.halt r => (tr ++ [Event.mwCalled mw.name], r)

/-- Outcome of running the opaque validation engine on a request. -/
inductive ValidationResult where
  | ok (data : String)
  | err (errors : String)
  deriving Repr

/-- A per-method validation schema capability: validating a request yields
success with normalized data or failure with errors (spec §6: `validate(schema,
request) -> { success: true, data } | { success: false, errors }`). -/
structure MethodSchema where
  validate : Req → ValidationResult

/-- A route's schema export: a table from (lower-case) method keys, as in the
route modules' `schema = { post: ..., get: ... }`, to the method's schema. -/
def Schema := String → Option MethodSchema

/-- Lower-case a method string (character-wise, as `toLowerCase` on the ASCII
method tokens). -/
def lowerMethod (s : String) : String := String.mk (s.data.map Char.toLower)

/-- Upper-case a method string (`req.method.toUpperCase()`, character-wise on
the ASCII method tokens). -/
def upperMethod (s : String) : String := String.mk (s.data.map Char.toUpper)

/-- Modelled from the spec: `createValidationMiddleware` lives in the excluded
validation-engine module (`middleware/validator`), only its call site is in
the source. Per spec §4.2 stage 3, the produced middleware looks up the
schema for the request's method (route modules key schemas by lower-case
method name); with no entry for the method it is a pass-through that calls
`next`; with an entry it runs the validator: on success it calls `next`
(attachment of the normalized data onto the request is not modelled — no
claim consumes it), on failure it short-circuits with a client-error (400)
response carrying the validator's errors and never calls `next`. -/
def createValidationMiddleware (schema : Schema) : Middleware where
  name := "validation"
  act := fun req =>
    match schema (lowerMethod req.method) with
    | none => MWAct.next
    | some ms =>
      match ms.validate req with
      | ValidationResult.ok _ => MWAct.next
      | ValidationResult.err e =>
          MWAct.halt { status := 400, body := Body.validationError e }

/-- A route descriptor as consumed by the dispatcher: `route.handlers[method]`,
the optional `route.middleware` list, and the optional `route.schema`. -/
structure Route where
  handlers : String → Option Handler
  middleware : Option (List Middleware)
  schema : Option Schema

/-- The object destructured at `const { route, params } = resolve(req)`. -/
structure ResolveResult where
  route : Option Route
  params : List (String × String)

/-- The Path Resolver collaborator (excluded `core/api-router`): an opaque
resolution function from request to optional route plus params. -/
structure ApiRouter where
  resolve : Req → ResolveResult

/-- Framework instance state read by the request handler: the optional API
router and the ordered global-middleware list. (The page router and server
options only feed excluded collaborators and are not modelled.) -/
structure Burger where
  apiRouter : Option ApiRouter
  globalMiddleware : List Middleware

/-- Stage 1 of chain construction (source lines 153–161): start from
`async () => handler(req, res)` and, if the route has a non-empty middleware
list, wrap it in reverse declaration order. -/
def buildRouteChain (h : Handler) (req : Req) (mws : Option (List Middleware)) : Chain :=
  let base : Chain := handlerChain h req
  match mws with
  | some l =>
      if l.length > 0 then l.reverse.foldl (fun chain mw => wrap mw req chain) base
      else base
  | none => base

/-- Stage 2 of chain construction (source lines 163–171): if the route has a
schema, wrap the route chain in the validation middleware, else keep the
route chain. -/
def buildComposed (schema : Option Schema) (routeChain : Chain) (req : Req) : Chain :=
  match schema with
  | some s => wrap (createValidationMiddleware s) req routeChain
  | none => routeChain

/-- Stage 3 of chain construction (source lines 173–182): if there is global
middleware, wrap the composed chain in it in reverse registration order so
the first-added runs first. -/
def buildFinal (gmws : List Middleware) (composed : Chain) (req : Req) : Chain :=
  if gmws.length > 0 then gmws.reverse.foldl (fun c mw => wrap mw req c) composed
  else composed

/-- The request handler that `serve` installs when an API router is
configured (source lines 92–186): special-path interception for
`/openapi.json` (re-checking `this.apiRouter`, with a descriptive 500 error
when absent) and `/docs`; route resolution with a 404 on no route; `params`
attachment; uppercased method-to-handler lookup with a 405 on no handler;
three-stage chain construction and execution. Returns the response, the
invocation trace, and the (unchanged) framework state; `none` models the
failed non-null assertion `this.apiRouter!` (unreachable when the handler is
installed, see `Burger.serve`). -/
def apiRequestHandler (b : Burger) (req0 : Req) : Option (Response × List Event × Burger) :=
  if req0.pathname = "/openapi.json" then
    match b.apiRouter with
    | some _ => some ({ status := 200, body := Body.openapiDoc }, [], b)
    | none =>
        some ({ status := 500,
                body := Body.jsonErrorMsg "API Router not configured"
                  "Please provide an apiDir option when initializing the Burger instance to enable OpenAPI documentation." },
              [], b)
  else if req0.pathname = "/docs" then
    some ({ status := 200, body := Body.swaggerHtml }, [], b)
  else
    match b.apiRouter with
    | none => none
    | some router =>
      let rr := router.resolve req0
      match rr.route with
      | none => some ({ status := 404, body := Body.jsonError "Route not found" }, [], b)
      | some route =>
        let req : Req := { req0 with params := rr.params }
        match route.handlers (upperMethod req.method) with
        | none => some ({ status := 405, body := Body.jsonError "Method Not Allowed" }, [], b)
        | some handler =>
          let out := buildFinal b.globalMiddleware
            (buildComposed route.schema (buildRouteChain handler req route.middleware) req)
            req []
          some (out.2, out.1, b)

/-- Per-request behaviour of `Burger.serve` (source lines 69–203): when an
API router is configured the handler above is installed; otherwise every
request gets the fallback `res.status(200).json({ message: 'Hello from
burger-api!' })`. -/
def Burger.serve (b : Burger) (req : Req) : Option (Response × List Event × Burger) :=
  match b.apiRouter with
  | some _ => apiRequestHandler b req
  | none => some ({ status := 200, body := Body.helloFallback }, [], b)

/-! Derived runner: the nested-closure composition built by the source's
reverse-and-wrap loops is equal to a direct runner over the middleware list in
declaration order. -/

/-- Run a middleware list in order, innermost continuation `base`. -/
def runList (mws : List Middleware) (req : Req) (base : Chain) : Chain :=
  match mws with
  | [] => base
  | mw :: rest => wrap mw req (runList rest req base)

theorem runList_eq_foldr (l : List Middleware) (req : Req) (base : Chain) :
    runList l req base = l.foldr (fun mw c => wrap mw req c) base := by
  induction l with
  | nil => rfl
  | cons mw rest ih => simp [runList, List.foldr, ih]

theorem foldl_reverse_eq_runList (l : List Middleware) (req : Req) (base : Chain) :
    l.reverse.foldl (fun chain mw => wrap mw req chain) base = runList l req base := by
  rw [List.foldl_reverse, runList_eq_foldr]

theorem runList_append (a b : List Middleware) (req : Req) (base : Chain) :
    runList (a ++ b) req base = runList a req (runList b req base) := by
  induction a with
  | nil => rfl
  | cons mw rest ih => simp [runList, ih]

/-- The validation stage as a (possibly empty) middleware list. -/
def schemaStage (schema : Option Schema) : List Middleware :=
  match schema with
  | some s => [createValidationMiddleware s]
  | none => []

/-- The full middleware list of a composed chain, in execution order: global
middleware, then the validation stage, then route middleware. -/
def chainMiddleware (gmws : List Middleware) (schema : Option Schema)
    (rmws : Option (List Middleware)) : List Middleware :=
  gmws ++ schemaStage schema ++ rmws.getD []

theorem buildRouteChain_eq_runList (h : Handler) (req : Req)
    (rmws : Option (List Middleware)) :
    buildRouteChain h req rmws = runList (rmws.getD []) req (handlerChain h req) := by
  cases rmws with
  | none => rfl
  | some l =>
    cases l with
    | nil => rfl
    | cons mw rest =>
      simp only [buildRouteChain, Option.getD_some]
      rw [if_pos (by simp), foldl_reverse_eq_runList]

theorem buildComposed_eq_runList (schema : Option Schema) (rc : Chain) (req : Req) :
    buildComposed schema rc req = runList (schemaStage schema) req rc := by
  cases schema <;> rfl

theorem buildFinal_eq_runList (gmws : List Middleware) (c : Chain) (req : Req) :
    buildFinal gmws c req = runList gmws req c := by
  cases gmws with
  | nil => rfl
  | cons mw rest =>
    simp only [buildFinal]
    rw [if_pos (by simp), foldl_reverse_eq_runList]

/-- The three build stages compose to the direct runner over the full
middleware list with the handler innermost. -/
theorem build_eq_runList (gmws : List Middleware) (schema : Option Schema)
    (rmws : Option (List Middleware)) (h : Handler) (req : Req) :
    buildFinal gmws (buildComposed schema (buildRouteChain h req rmws) req) req
      = runList (chainMiddleware gmws schema rmws) req (handlerChain h req) := by
  rw [buildFinal_eq_runList, buildComposed_eq_runList, buildRouteChain_eq_runList,
    chainMiddleware, runList_append, runList_append]

/-! Trace lemmas for the direct runner. -/

/-- Invocation events of a middleware list, in order. -/
def evs (l : List Middleware) : List Event :=
  l.map fun mw => Event.mwCalled mw.name

/-- Number of terminal-handler invocations recorded in a trace. -/
def countHandler : List Event → Nat
  | [] => 0
  | Event.handlerCalled :: rest => countHandler rest + 1
  | Event.mwCalled _ :: rest => countHandler rest

theorem countHandler_append (a b : List Event) :
    countHandler (a ++ b) = countHandler a + countHandler b := by
  induction a with
  | nil => simp [countHandler]
  | cons e rest ih =>
    cases e with
    | mwCalled n => simp [countHandler, ih]
    | handlerCalled => simp [countHandler, ih]; omega

theorem countHandler_evs (l : List Middleware) : countHandler (evs l) = 0 := by
  induction l with
  | nil => rfl
  | cons mw rest ih => simpa [evs, countHandler] using ih

theorem isNext_true_iff (a : MWAct) : a.isNext = true ↔ a = MWAct.next := by
  cases a <;> simp [MWAct.isNext]

theorem isNext_false_halt (a : MWAct) (h : ¬ a.isNext = true) :
    ∃ r, a = MWAct.halt r := by
  cases a with
  | next => exact absurd rfl h
  | halt r => exact ⟨r, rfl⟩

/-- When every middleware of the list calls `next`, running the chain invokes
each middleware in order, then the handler, and returns the handler's
response. -/
theorem runList_all_next (l : List Middleware) (h : Handler) (req : Req)
    (hall : ∀ mw ∈ l, (mw.act req).isNext = true) :
    ∀ tr, runList l req (handlerChain h req) tr
      = (tr ++ evs l ++ [Event.handlerCalled], h req) := by
  induction l with
  | nil => intro tr; simp [runList, handlerChain, evs]
  | cons mw rest ih =>
    intro tr
    have hmw : mw.act req = MWAct.next :=
      (isNext_true_iff _).1 (hall mw (List.mem_cons_self _ _))
    have hrest : ∀ m ∈ rest, (m.act req).isNext = true :=
      fun m hm => hall m (List.mem_cons_of_mem _ hm)
    simp [runList, wrap, hmw, ih hrest, evs]

/-- When a middleware that does not call `next` is reached (all earlier ones
called `next`), the chain stops there: the trace records exactly the earlier
middlewares and the halting one, the rest of the list and the handler never
run, and the response is the halting middleware's. -/
theorem runList_halt (pre : List Middleware) (m : Middleware)
    (post : List Middleware) (r : Response) (h : Handler) (req : Req)
    (hpre : ∀ p ∈ pre, (p.act req).isNext = true)
    (hm : m.act req = MWAct.halt r) :
    ∀ tr, runList (pre ++ m :: post) req (handlerChain h req) tr
      = (tr ++ evs pre ++ [Event.mwCalled m.name], r) := by
  induction pre with
  | nil => intro tr; simp [runList, wrap, hm, evs]
  | cons p rest ih =>
    intro tr
    have hp : p.act req = MWAct.next :=
      (isNext_true_iff _).1 (hpre p (List.mem_cons_self _ _))
    have hrest : ∀ q ∈ rest, (q.act req).isNext = true :=
      fun q hq => hpre q (List.mem_cons_of_mem _ hq)
    simp [runList, wrap, hp, ih hrest, evs]

/-- Any middleware list splits at its first member that does not call `next`,
when one exists. -/
theorem exists_first_halt (l : List Middleware) (req : Req)
    (hnot : ¬ ∀ mw ∈ l, (mw.act req).isNext = true) :
    ∃ pre m post r, l = pre ++ m :: post
      ∧ (∀ p ∈ pre, (p.act req).isNext = true) ∧ m.act req = MWAct.halt r := by
  induction l with
  | nil => exact absurd (by intro mw hm; cases hm) hnot
  | cons mw rest ih =>
    by_cases hmw : (mw.act req).isNext = true
    · have hr : ¬ ∀ m ∈ rest, (m.act req).isNext = true := by
        intro hall
        exact hnot (by
          intro m hm
          rcases List.mem_cons.1 hm with h1 | h2
          · exact h1 ▸ hmw
          · exact hall m h2)
      rcases ih hr with ⟨pre, m, post, r, hsplit, hpre, hm⟩
      refine ⟨mw :: pre, m, post, r, by simp [hsplit], ?_, hm⟩
      intro p hp
      rcases List.mem_cons.1 hp with h1 | h2
      · exact h1 ▸ hmw
      · exact hpre p h2
    · rcases isNext_false_halt _ hmw with ⟨r, hr⟩
      exact ⟨[], mw, rest, r, rfl, fun p hp => absurd hp (List.not_mem_nil p), hr⟩

/-- Dispatcher reduction: when an API router is configured, the path is not a
special path, resolution yields a route, and the route has a handler for the
uppercased method, `serve` attaches the params and runs the composed chain,
whose behaviour is the direct runner over the full middleware list. -/
theorem serve_resolved (b : Burger) (router : ApiRouter) (route : Route)
    (req0 : Req) (ps : List (String × String)) (handler : Handler)
    (hb : b.apiRouter = some router)
    (hp1 : req0.pathname ≠ "/openapi.json") (hp2 : req0.pathname ≠ "/docs")
    (hres : router.resolve req0 = { route := some route, params := ps })
    (hh : route.handlers (upperMethod req0.method) = some handler) :
    b.serve req0 =
      some ((runList (chainMiddleware b.globalMiddleware route.schema route.middleware)
              { req0 with params := ps }
              (handlerChain handler { req0 with params := ps }) []).2,
            (runList (chainMiddleware b.globalMiddleware route.schema route.middleware)
              { req0 with params := ps }
              (handlerChain handler { req0 with params := ps }) []).1, b) := by
  simp only [Burger.serve, apiRequestHandler, hb, if_neg hp1, if_neg hp2, hres, hh,
    build_eq_runList]

/-- Executing a composed chain always records at least one invocation: the
output trace strictly extends the input trace. -/
theorem runList_trace_extends (l : List Middleware) (req : Req) (h : Handler) :
    ∀ tr, ∃ ext, (runList l req (handlerChain h req) tr).1 = tr ++ ext ∧ ext ≠ [] := by
  induction l with
  | nil => intro tr; exact ⟨[Event.handlerCalled], rfl, by simp⟩
  | cons mw rest ih =>
    intro tr
    cases hact : mw.act req with
    | next =>
      rcases ih (tr ++ [Event.mwCalled mw.name]) with ⟨ext, hext, hne⟩
      refine ⟨Event.mwCalled mw.name :: ext, ?_, by simp⟩
      simp [runList, wrap, hact, hext]
    | halt r =>
      refine ⟨[Event.mwCalled mw.name], ?_, by simp⟩
      simp [runList, wrap, hact]

theorem runList_trace_ne_nil (l : List Middleware) (req : Req) (h : Handler) :
    (runList l req (handlerChain h req) []).1 ≠ [] := by
  rcases runList_trace_extends l req h [] with ⟨ext, hext, hne⟩
  simpa [hext] using hne

/-! Concrete sample objects used by witnesses and counterexamples. -/

/-- A middleware that always calls `next`. -/
def mwNext (n : String) : Middleware where
  name := n
  act := fun _ => MWAct.next

/-- The response a short-circuiting sample middleware produces. -/
def stopResponse : Response := { status := 200, body := Body.payload "stopped" }

/-- A middleware that never calls `next`. -/
def mwHalt (n : String) : Middleware where
  name := n
  act := fun _ => MWAct.halt stopResponse

/-- A sample terminal handler. -/
def sampleHandler : Handler := fun _ => { status := 200, body := Body.payload "ok" }

/-- A sample route with a GET handler and the given middleware and schema. -/
def routeOf (mws : Option (List Middleware)) (sch : Option Schema) : Route where
  handlers := fun m => if m = "GET" then some sampleHandler else none
  middleware := mws
  schema := sch

/-- A router resolving every request to the given route with empty params. -/
def routerOf (r : Route) : ApiRouter where
  resolve := fun _ => { route := some r, params := [] }

/-- A sample GET request to a non-special path. -/
def reqGET : Req := { pathname := "/x", method := "GET", params := [] }

/-- A request to the OpenAPI document path. -/
def reqDoc : Req := { pathname := "/openapi.json", method := "GET", params := [] }

/-- A framework with global middleware `A`, `B` and a route with middleware
`C`, `D`, no schema. -/
def burgerAB : Burger where
  apiRouter := some (routerOf (routeOf (some [mwNext "C", mwNext "D"]) none))
  globalMiddleware := [mwNext "A", mwNext "B"]

/-- A framework with one global middleware `G` and one route middleware `R`,
no schema. -/
def burgerG : Burger where
  apiRouter := some (routerOf (routeOf (some [mwNext "R"]) none))
  globalMiddleware := [mwNext "G"]

/-- A schema table with an entry only for `post`. -/
def schemaPostOnly : Schema := fun m =>
  if m = "post" then some { validate := fun _ => ValidationResult.ok "d" } else none

/-- A framework with no global middleware and a route with middleware `R` and
a schema declaring only a `post` entry. -/
def burgerV : Burger where
  apiRouter := some (routerOf (routeOf (some [mwNext "R"]) (some schemaPostOnly)))
  globalMiddleware := []

/-- A schema table with no entries at all. -/
def schemaNoEntries : Schema := fun _ => none

/-- A framework with global middleware `A` and a route with middleware `C`
and an entryless schema (so the inserted validation middleware passes
through). -/
def burgerVal : Burger where
  apiRouter := some (routerOf (routeOf (some [mwNext "C"]) (some schemaNoEntries)))
  globalMiddleware := [mwNext "A"]

/-- A framework with no API router configured. -/
def burgerNone : Burger where
  apiRouter := none
  globalMiddleware := []

/-- Index of the first occurrence of an event in a trace (length of the trace
when absent). -/
def idxOfEv (e : Event) : List Event → Nat
  | [] => 0
  | x :: rest => if x = e then 0 else idxOfEv e rest + 1

example : burgerG.serve reqGET =
    some ({ status := 200, body := Body.payload "ok" },
      [Event.mwCalled "G", Event.mwCalled "R", Event.handlerCalled], burgerG) := rfl

example : burgerV.serve reqGET =
    some ({ status := 200, body := Body.payload "ok" },
      [Event.mwCalled "validation", Event.mwCalled "R", Event.handlerCalled], burgerV) := rfl

example : burgerNone.serve reqDoc =
    some ({ status := 200, body := Body.helloFallback }, [], burgerNone) := rfl

/-- A sample POST request to a non-special path. -/
def reqPOST : Req := { pathname := "/x", method := "POST", params := [] }

/-- A router that matches no request. -/
def routerNoRoute : ApiRouter where
  resolve := fun _ => { route := none, params := [] }

/-- A framework whose router matches no request, with one global middleware. -/
def burgerNoRoute : Burger where
  apiRouter := some routerNoRoute
  globalMiddleware := [mwNext "G"]

/-! Claim theorems. -/

/-- C5: for every request whose path matches a registered route but whose
uppercased method has no registered handler on that route, the dispatcher
responds with status 405 and body `{ "error": "Method Not Allowed" }` with an
empty invocation trace — no middleware (route-scoped, validation, or global)
is invoked and no middleware chain is constructed. -/
theorem method_not_allowed_405 (b : Burger) (router : ApiRouter) (route : Route)
    (req0 : Req) (ps : List (String × String))
    (hb : b.apiRouter = some router)
    (hp1 : req0.pathname ≠ "/openapi.json") (hp2 : req0.pathname ≠ "/docs")
    (hres : router.resolve req0 = { route := some route, params := ps })
    (hh : route.handlers (upperMethod req0.method) = none) :
    b.serve req0 =
      some ({ status := 405, body := Body.jsonError "Method Not Allowed" }, [], b) := by
  simp only [Burger.serve, apiRequestHandler, hb, if_neg hp1, if_neg hp2, hres, hh]

/-- Witness for C5: a POST to a route registering only GET gets the 405
response with no middleware invoked. -/
theorem method_not_allowed_405_witness :
    burgerG.serve reqPOST =
      some ({ status := 405, body := Body.jsonError "Method Not Allowed" }, [], burgerG) :=
  method_not_allowed_405 burgerG (routerOf (routeOf (some [mwNext "R"]) none))
    (routeOf (some [mwNext "R"]) none) reqPOST [] rfl (by decide) (by decide) rfl rfl

/-- C6: for every non-special-path request whose path the resolver matches to
no route, regardless of method, the dispatcher responds 404 with body
`{ "error": "Route not found" }`, with an empty invocation trace and the
framework state untouched — no params attachment, no chain construction, no
middleware execution. -/
theorem route_not_found_404 (b : Burger) (router : ApiRouter) (req0 : Req)
    (ps : List (String × String))
    (hb : b.apiRouter = some router)
    (hp1 : req0.pathname ≠ "/openapi.json") (hp2 : req0.pathname ≠ "/docs")
    (hres : router.resolve req0 = { route := none, params := ps }) :
    b.serve req0 =
      some ({ status := 404, body := Body.jsonError "Route not found" }, [], b) := by
  simp only [Burger.serve, apiRequestHandler, hb, if_neg hp1, if_neg hp2, hres]

/-- Witness for C6: a request against a router matching nothing gets the 404
body with no middleware invoked. -/
theorem route_not_found_404_witness :
    burgerNoRoute.serve reqGET =
      some ({ status := 404, body := Body.jsonError "Route not found" }, [], burgerNoRoute) :=
  route_not_found_404 burgerNoRoute routerNoRoute reqGET [] rfl (by decide) (by decide) rfl

/-- C7: when an API router is configured, a request to a framework-owned
special path (`/openapi.json` or `/docs`) is handled immediately — the
response is the corresponding special document, the invocation trace is empty
(no global, route-scoped, or validation middleware executes), and route
resolution is never consulted. -/
theorem special_paths_bypass (b : Burger) (r : ApiRouter) (req : Req)
    (hb : b.apiRouter = some r) :
    (req.pathname = "/openapi.json" →
      b.serve req = some ({ status := 200, body := Body.openapiDoc }, [], b))
    ∧ (req.pathname = "/docs" →
      b.serve req = some ({ status := 200, body := Body.swaggerHtml }, [], b)) := by
  constructor
  · intro hp
    simp only [Burger.serve, apiRequestHandler, hb, hp]
    simp
  · intro hp
    simp only [Burger.serve, apiRequestHandler, hb, hp]
    simp

/-- Witness for C7: a request to `/openapi.json` on a configured framework is
answered with the OpenAPI document and an empty trace. -/
theorem special_paths_bypass_witness :
    burgerAB.serve reqDoc =
      some ({ status := 200, body := Body.openapiDoc }, [], burgerAB) :=
  (special_paths_bypass burgerAB
    (routerOf (routeOf (some [mwNext "C", mwNext "D"]) none)) reqDoc rfl).1 rfl

/-- C8 counterexample: with no API router configured, a request to
`/openapi.json` is answered by the fallback handler with status 200 and the
greeting body — not a 500-class error explaining the missing configuration,
refuting the claim's second half. -/
theorem missing_router_counterexample :
    burgerNone.serve reqDoc =
      some ({ status := 200, body := Body.helloFallback }, [], burgerNone)
    ∧ ({ status := 200, body := Body.helloFallback } : Response).status ≠ 500
    ∧ Body.helloFallback ≠ Body.jsonErrorMsg "API Router not configured"
        "Please provide an apiDir option when initializing the Burger instance to enable OpenAPI documentation." :=
  ⟨rfl, by decide, by decide⟩

/-- C8 amended: the special endpoints are served only when an API router is
configured; when none is configured, `serve` installs the fallback handler,
so every request — including those to the special endpoints — receives status
200 with the greeting body (the 500 configuration-error branch is never
taken); when a router is configured, `/openapi.json` serves the document. -/
theorem special_endpoints_require_router (b : Burger) (req : Req) :
    (b.apiRouter = none →
      b.serve req = some ({ status := 200, body := Body.helloFallback }, [], b))
    ∧ (∀ r, b.apiRouter = some r → req.pathname = "/openapi.json" →
        b.serve req = some ({ status := 200, body := Body.openapiDoc }, [], b)) := by
  constructor
  · intro hb
    simp [Burger.serve, hb]
  · intro r hb hp
    simp only [Burger.serve, apiRequestHandler, hb, hp]
    simp

/-- Witness for the amended C8: the unconfigured framework answers the
OpenAPI path with the 200 greeting. -/
theorem special_endpoints_require_router_witness :
    burgerNone.serve reqDoc =
      some ({ status := 200, body := Body.helloFallback }, [], burgerNone) :=
  (special_endpoints_require_router burgerNone reqDoc).1 rfl

/-- C9: handling any request leaves the framework state — the route table
reference and the global-middleware list — exactly as it was: whenever `serve`
produces an outcome, the framework state it carries out equals the one it was
given. (The source reads `this.globalMiddleware` and the resolved route only
through `.slice()` copies and never assigns to them; in the embedding every
branch of the dispatcher threads the state through unchanged.) -/
theorem serve_preserves_state (b : Burger) (req : Req)
    (out : Response × List Event × Burger) (hout : b.serve req = some out) :
    out.2.2 = b := by
  unfold Burger.serve at hout
  split at hout
  · simp only [apiRequestHandler] at hout
    split at hout
    · split at hout
      · injection hout with h
        subst h
        rfl
      · injection hout with h
        subst h
        rfl
    · split at hout
      · injection hout with h
        subst h
        rfl
      · split at hout
        · exact Option.noConfusion hout
        · split at hout
          · injection hout with h
            subst h
            rfl
          · split at hout
            · injection hout with h
              subst h
              rfl
            · injection hout with h
              subst h
              rfl
  · injection hout with h
    subst h
    rfl

/-- Witness for C9: the sample dispatch returns the framework it was given. -/
theorem serve_preserves_state_witness :
    (({ status := 200, body := Body.payload "ok" } : Response),
      ([Event.mwCalled "G", Event.mwCalled "R", Event.handlerCalled] : List Event),
      burgerG).2.2 = burgerG :=
  serve_preserves_state burgerG reqGET _ rfl

/-- C10: the API request handler is installed by `serve` only when the API
router is defined, and the handler re-reads the same never-reassigned field,
so its inner branch answering 500 with the `API Router not configured` error
body is unreachable: whenever the configured dispatcher produces a response
without invoking any middleware or handler (an empty trace — which is the
only way the dispatcher itself authored the response), that response's body
is never the configuration-error object. -/
theorem config_error_unreachable (b : Burger) (r : ApiRouter) (req : Req)
    (resp : Response) (b2 : Burger)
    (hb : b.apiRouter = some r)
    (hout : b.serve req = some (resp, [], b2)) :
    ∀ e m, resp.body ≠ Body.jsonErrorMsg e m := by
  intro e m
  have hserve : apiRequestHandler b req = some (resp, [], b2) := by
    simpa [Burger.serve, hb] using hout
  simp only [apiRequestHandler, hb] at hserve
  split at hserve
  · injection hserve with h
    have h1 : resp = { status := 200, body := Body.openapiDoc } :=
      (congrArg Prod.fst h).symm
    rw [h1]
    simp
  · split at hserve
    · injection hserve with h
      have h1 : resp = { status := 200, body := Body.swaggerHtml } :=
        (congrArg Prod.fst h).symm
      rw [h1]
      simp
    · split at hserve
      · injection hserve with h
        have h1 : resp = { status := 404, body := Body.jsonError "Route not found" } :=
          (congrArg Prod.fst h).symm
        rw [h1]
        simp
      · split at hserve
        · injection hserve with h
          have h1 : resp = { status := 405, body := Body.jsonError "Method Not Allowed" } :=
            (congrArg Prod.fst h).symm
          rw [h1]
          simp
        · injection hserve with h
          have htr := congrArg (fun p => p.2.1) h
          dsimp only at htr
          rw [build_eq_runList] at htr
          exact absurd htr (runList_trace_ne_nil _ _ _)

/-- Witness for C10: the configured framework's OpenAPI response body is not a
configuration-error object. -/
theorem config_error_unreachable_witness :
    ({ status := 200, body := Body.openapiDoc } : Response).body
      ≠ Body.jsonErrorMsg "API Router not configured" "missing apiDir" :=
  config_error_unreachable burgerAB
    (routerOf (routeOf (some [mwNext "C", mwNext "D"]) none)) reqDoc
    { status := 200, body := Body.openapiDoc } burgerAB rfl rfl
    "API Router not configured" "missing apiDir"

/-- C1: with global middleware `[A, B]` (registration order) and route
middleware `[C, D]` (declaration order) on a matched route with a handler for
the method (and no schema, so no validation stage interleaves), the composed
chain executes `A`, `B`, `C`, `D` in exactly that order before the handler;
and if `B` does not call `next`, then `C`, `D`, and the handler are never
invoked and the dispatcher's response is exactly the response `B` produced. -/
theorem global_then_route_order (A B C D : Middleware) (b : Burger)
    (router : ApiRouter) (route : Route) (req0 : Req)
    (ps : List (String × String)) (handler : Handler) (r : Response)
    (hb : b.apiRouter = some router)
    (hg : b.globalMiddleware = [A, B])
    (hp1 : req0.pathname ≠ "/openapi.json") (hp2 : req0.pathname ≠ "/docs")
    (hres : router.resolve req0 = { route := some route, params := ps })
    (hrm : route.middleware = some [C, D])
    (hsch : route.schema = none)
    (hh : route.handlers (upperMethod req0.method) = some handler) :
    (((A.act { req0 with params := ps }).isNext = true) →
     ((B.act { req0 with params := ps }).isNext = true) →
     ((C.act { req0 with params := ps }).isNext = true) →
     ((D.act { req0 with params := ps }).isNext = true) →
      b.serve req0 = some (handler { req0 with params := ps },
        [Event.mwCalled A.name, Event.mwCalled B.name, Event.mwCalled C.name,
         Event.mwCalled D.name, Event.handlerCalled], b))
    ∧ (((A.act { req0 with params := ps }).isNext = true) →
       (B.act { req0 with params := ps } = MWAct.halt r) →
       b.serve req0 = some (r, [Event.mwCalled A.name, Event.mwCalled B.name], b)) := by
  have hs := serve_resolved b router route req0 ps handler hb hp1 hp2 hres hh
  rw [hg, hrm, hsch] at hs
  constructor
  · intro hA hB hC hD
    rw [hs]
    have hall : ∀ mw ∈ chainMiddleware [A, B] none (some [C, D]),
        (mw.act { req0 with params := ps }).isNext = true := by
      intro mw hm
      simp only [chainMiddleware, schemaStage, Option.getD_some, List.nil_append,
        List.append_nil, List.cons_append, List.mem_cons, List.not_mem_nil,
        or_false] at hm
      rcases hm with rfl | rfl | rfl | rfl
      exacts [hA, hB, hC, hD]
    rw [runList_all_next _ handler _ hall []]
    simp [chainMiddleware, schemaStage, evs]
  · intro hA hB
    rw [hs]
    have hsplit : chainMiddleware [A, B] none (some [C, D]) = [A] ++ B :: [C, D] := by
      simp [chainMiddleware, schemaStage]
    rw [hsplit, runList_halt [A] B [C, D] r handler _ ?hpre hB []]
    · simp [evs]
    case hpre =>
      intro p hp
      rw [List.mem_singleton] at hp
      subst hp
      exact hA

/-- Witness for C1: concrete chain `A, B` global, `C, D` route, all calling
next; the trace is exactly `A, B, C, D, handler`. -/
theorem global_then_route_order_witness :
    burgerAB.serve reqGET =
      some ({ status := 200, body := Body.payload "ok" },
        [Event.mwCalled "A", Event.mwCalled "B", Event.mwCalled "C",
         Event.mwCalled "D", Event.handlerCalled], burgerAB) :=
  (global_then_route_order (mwNext "A") (mwNext "B") (mwNext "C") (mwNext "D")
    burgerAB (routerOf (routeOf (some [mwNext "C", mwNext "D"]) none))
    (routeOf (some [mwNext "C", mwNext "D"]) none) reqGET [] sampleHandler
    stopResponse rfl rfl (by decide) (by decide) rfl rfl rfl rfl).1 rfl rfl rfl rfl

/-- C2 counterexample: a framework with one global middleware `G` and a route
with one route-specific middleware `R` (both calling next). The dispatched
execution records `G` before `R` — the global middleware executes first, so
the claimed execution order (route-specific middleware first, then
validation, then global middleware, then the handler) is false: `R` does not
precede `G` in the trace. -/
theorem pipeline_order_counterexample :
    (burgerG.serve reqGET =
      some ({ status := 200, body := Body.payload "ok" },
        [Event.mwCalled "G", Event.mwCalled "R", Event.handlerCalled], burgerG))
    ∧ ¬ idxOfEv (Event.mwCalled "R")
          [Event.mwCalled "G", Event.mwCalled "R", Event.handlerCalled]
        < idxOfEv (Event.mwCalled "G")
          [Event.mwCalled "G", Event.mwCalled "R", Event.handlerCalled] :=
  ⟨rfl, by decide⟩

/-- C2 amended: for every dispatched request that reaches the handler, the
stages are composed in the order route chain, then validation, then global
middleware — each wrapping the previous — so execution order is global
middleware (registration order) first, then schema validation, then
route-specific middleware (declaration order), then the handler. -/
theorem pipeline_order_amended (b : Burger) (router : ApiRouter) (route : Route)
    (req0 : Req) (ps : List (String × String)) (handler : Handler)
    (gmws rmws : List Middleware) (s : Schema)
    (hb : b.apiRouter = some router)
    (hg : b.globalMiddleware = gmws)
    (hp1 : req0.pathname ≠ "/openapi.json") (hp2 : req0.pathname ≠ "/docs")
    (hres : router.resolve req0 = { route := some route, params := ps })
    (hrm : route.middleware = some rmws)
    (hsch : route.schema = some s)
    (hh : route.handlers (upperMethod req0.method) = some handler)
    (hgn : ∀ mw ∈ gmws, (mw.act { req0 with params := ps }).isNext = true)
    (hrn : ∀ mw ∈ rmws, (mw.act { req0 with params := ps }).isNext = true)
    (hv : ((createValidationMiddleware s).act { req0 with params := ps }).isNext = true) :
    b.serve req0 = some (handler { req0 with params := ps },
      evs gmws ++ Event.mwCalled "validation" :: evs rmws ++ [Event.handlerCalled], b) := by
  have hs := serve_resolved b router route req0 ps handler hb hp1 hp2 hres hh
  rw [hg, hrm, hsch] at hs
  rw [hs]
  have hall : ∀ mw ∈ chainMiddleware gmws (some s) (some rmws),
      (mw.act { req0 with params := ps }).isNext = true := by
    intro mw hm
    simp only [chainMiddleware, schemaStage, Option.getD_some, List.mem_append,
      List.mem_singleton] at hm
    rcases hm with (hm | rfl) | hm
    · exact hgn mw hm
    · exact hv
    · exact hrn mw hm
  rw [runList_all_next _ handler _ hall []]
  simp [chainMiddleware, schemaStage, evs, createValidationMiddleware]

/-- Witness for the amended C2: global `A`, schema with no entry for the
method (so validation passes through), route `C`; the trace is `A`, the
validation middleware, `C`, then the handler. -/
theorem pipeline_order_amended_witness :
    burgerVal.serve reqGET =
      some ({ status := 200, body := Body.payload "ok" },
        [Event.mwCalled "A", Event.mwCalled "validation", Event.mwCalled "C",
         Event.handlerCalled], burgerVal) :=
  pipeline_order_amended burgerVal (routerOf (routeOf (some [mwNext "C"]) (some schemaNoEntries)))
    (routeOf (some [mwNext "C"]) (some schemaNoEntries)) reqGET [] sampleHandler
    [mwNext "A"] [mwNext "C"] schemaNoEntries rfl rfl (by decide) (by decide)
    rfl rfl rfl rfl
    (by intro mw hm; rw [List.mem_singleton] at hm; subst hm; rfl)
    (by intro mw hm; rw [List.mem_singleton] at hm; subst hm; rfl)
    rfl

/-- C3: for every composed chain — global middleware, then the optional
validation stage, then route middleware, around the terminal handler — the
terminal handler is invoked exactly once if and only if every middleware of
the chain calls `next`; and any middleware that does not call `next` (all
before it calling `next`) terminates the chain with exactly the response it
produced, the trace stopping at its own invocation: no later middleware and
not the handler executes. -/
theorem handler_once_iff_all_next (gmws : List Middleware) (schema : Option Schema)
    (rmws : Option (List Middleware)) (h : Handler) (req : Req) :
    (countHandler
        (buildFinal gmws (buildComposed schema (buildRouteChain h req rmws) req) req []).1 = 1
      ↔ ∀ mw ∈ chainMiddleware gmws schema rmws, (mw.act req).isNext = true)
    ∧ (∀ pre m post r, chainMiddleware gmws schema rmws = pre ++ m :: post →
        (∀ p ∈ pre, (p.act req).isNext = true) → m.act req = MWAct.halt r →
        buildFinal gmws (buildComposed schema (buildRouteChain h req rmws) req) req []
          = (evs pre ++ [Event.mwCalled m.name], r)) := by
  rw [build_eq_runList]
  constructor
  · constructor
    · intro hcount
      by_contra hnot
      rcases exists_first_halt _ req hnot with ⟨pre, m, post, r, hsplit, hpre, hm⟩
      rw [hsplit, runList_halt pre m post r h req hpre hm []] at hcount
      simp [countHandler_append, countHandler_evs, countHandler] at hcount
    · intro hall
      rw [runList_all_next _ h req hall []]
      simp [countHandler_append, countHandler_evs, countHandler]
  · intro pre m post r hsplit hpre hm
    rw [hsplit, runList_halt pre m post r h req hpre hm []]
    simp

/-- Witness for C3: a single halting global middleware terminates the chain
with its own response and a trace of just its invocation. -/
theorem handler_once_iff_all_next_witness :
    buildFinal [mwHalt "H"]
        (buildComposed none (buildRouteChain sampleHandler reqGET none) reqGET) reqGET []
      = ([Event.mwCalled "H"], stopResponse) :=
  (handler_once_iff_all_next [mwHalt "H"] none none sampleHandler reqGET).2
    [] (mwHalt "H") [] stopResponse rfl
    (fun p hp => absurd hp (List.not_mem_nil p)) rfl

/-- C4 counterexample: a route declaring a schema with an entry only for
`post`, dispatched with method `GET` — so no schema exists for that method.
The claim says the validation stage is then a no-op pass-through and the
chain is the route chain unchanged; but the executed chain invokes the
validation middleware (trace `validation, R, handler`), whereas the route
chain alone is `R, handler` — the chain is not the route chain unchanged. -/
theorem validation_insertion_counterexample :
    (burgerV.serve reqGET =
      some ({ status := 200, body := Body.payload "ok" },
        [Event.mwCalled "validation", Event.mwCalled "R", Event.handlerCalled], burgerV))
    ∧ (buildRouteChain sampleHandler reqGET (some [mwNext "R"]) []
        = ([Event.mwCalled "R", Event.handlerCalled], sampleHandler reqGET))
    ∧ ([Event.mwCalled "validation", Event.mwCalled "R", Event.handlerCalled]
        ≠ [Event.mwCalled "R", Event.handlerCalled]) :=
  ⟨rfl, rfl, by decide⟩

/-- C4 amended: the validation middleware is inserted between the route chain
and the global middleware exactly when the route declares a schema object,
regardless of whether that object has an entry for the request's method: with
no schema object the composed chain is the route chain unchanged; with a
schema object the validation middleware wraps the route chain, behaving as a
pass-through (calling `next` after its own invocation) when the object has no
entry for the method, and short-circuiting with a 400 validation-error
response when the method's entry rejects the request. -/
theorem validation_stage_amended (rc : Chain) (req : Req) (s : Schema) :
    (buildComposed none rc req = rc)
    ∧ (buildComposed (some s) rc req = wrap (createValidationMiddleware s) req rc)
    ∧ (s (lowerMethod req.method) = none →
        ∀ tr, buildComposed (some s) rc req tr = rc (tr ++ [Event.mwCalled "validation"]))
    ∧ (∀ ms e, s (lowerMethod req.method) = some ms →
        ms.validate req = ValidationResult.err e →
        ∀ tr, buildComposed (some s) rc req tr
          = (tr ++ [Event.mwCalled "validation"],
             { status := 400, body := Body.validationError e })) := by
  refine ⟨rfl, rfl, ?_, ?_⟩
  · intro hnone tr
    simp [buildComposed, wrap, createValidationMiddleware, hnone]
  · intro ms e hsome herr tr
    simp [buildComposed, wrap, createValidationMiddleware, hsome, herr]

/-- Witness for the amended C4: with a schema declaring only `post` and a GET
request, the composed chain equals the route chain run after the validation
middleware's own invocation event. -/
theorem validation_stage_amended_witness :
    buildComposed (some schemaPostOnly) (handlerChain sampleHandler reqGET) reqGET []
      = ([Event.mwCalled "validation", Event.handlerCalled],
         { status := 200, body := Body.payload "ok" }) :=
  (validation_stage_amended (handlerChain sampleHandler reqGET) reqGET schemaPostOnly).2.2.1
    rfl []

end BurgerApi
